import Mathlib

/-!
Verification development for the document-ai repository's schema compiler and
citation-enrichment pipeline.

The Python source works over JSON-like data (nested dicts/lists/scalars).  We
embed those values as the inductive `JValue` (dicts become ordered association
lists, as Python dicts preserve insertion order), the parsed-document data
model (`BoundingBox`, `Line`, `Page`, `PDF`, `PDFDocument`) as structures with
exact rational coordinates, and each Python function as a Lean function of the
same name.  Fallible Python code (raising `ValueError` / `TypeError` /
`KeyError`) is embedded as `Except String`.
-/

namespace DocAI

/-- A JSON-like Python value: `None`, `bool`, `int`, `float` (embedded exactly
as a rational), `str`, `list`, and `dict` (an ordered association list, since
Python dicts preserve and expose insertion order). -/
inductive JValue where
  | null
  | bool (b : Bool)
  | int (n : Int)
  | num (q : Rat)
  | str (s : String)
  | arr (xs : List JValue)
  | obj (kvs : List (String × JValue))

/-- `k in d` for a Python dict. -/
def containsKey (kvs : List (String × JValue)) (k : String) : Bool :=
  kvs.any (fun kv => kv.1 == k)

/-- `d.get(k)`: `some v` when the key is present (Python dict keys are unique,
so the first binding is the binding). -/
def objLookup (kvs : List (String × JValue)) (k : String) : Option JValue :=
  (kvs.find? (fun kv => kv.1 == k)).map (fun kv => kv.2)

/-- `d[k]` under a guard that already established the key is present; the
default is never reached at call sites. -/
def objGetD (kvs : List (String × JValue)) (k : String) (d : JValue) : JValue :=
  match objLookup kvs k with
  | some v => v
  | none => d

/-- Normalized rectangle locating a line of text on a page
(`schemas/core.py: BoundingBox`). -/
structure BoundingBox where
  x0 : Rat
  top : Rat
  x1 : Rat
  bottom : Rat

/-- One line of parsed text with its geometry (`schemas/pdf.py: Line`). -/
structure Line where
  text : String
  bounding_box : BoundingBox

/-- One parsed page (`schemas/pdf.py: Page`). -/
structure Page where
  lines : List Line
  width : Rat
  height : Rat

/-- A parsed PDF: an ordered sequence of pages (`schemas/pdf.py: PDF`). -/
structure PDF where
  pages : List Page

/-- The two PDF extraction modes referenced by `formatter.py` and
`schemas/pdf.py` (`SINGLE_PASS` / `MULTI_PASS`). -/
inductive PDFExtractionMode where
  | single_pass
  | multi_pass
deriving DecidableEq

/-- The fields of `schemas/pdf.py: PDFDocument` consumed by the enrichment
engine and the formatter (`content`, `include_citations`, `extraction_mode`). -/
structure PDFDocument where
  content : Option PDF
  include_citations : Bool
  extraction_mode : PDFExtractionMode

/-- `pydantic.BaseModel.model_dump` for a `BoundingBox`: the plain 4-field
mapping in field-declaration order. -/
def BoundingBox.model_dump (b : BoundingBox) : JValue :=
  .obj [("x0", .num b.x0), ("top", .num b.top), ("x1", .num b.x1), ("bottom", .num b.bottom)]

/-! ## `utils.py`: citation enrichment -/

/-- Python `isinstance(v, int)`: `bool` is a subclass of `int`, so booleans
pass the check. -/
def isPyInt : JValue → Bool
  | .int _ => true
  | .bool _ => true
  | _ => false

/-- The integer value of a Python `int` (booleans included: `True` is 1 and
`False` is 0); `none` for non-`int` values. -/
def pyIntOf? : JValue → Option Int
  | .int n => some n
  | .bool b => some (if b then 1 else 0)
  | _ => none

/-- `_is_citation_dict` (utils.py): a dict with a `page` key holding an `int`
(booleans included, by Python's `isinstance`) and a `lines` key holding a
`list`. -/
def _is_citation_dict : JValue → Bool
  | .obj kvs =>
      containsKey kvs "page" && containsKey kvs "lines" &&
      (match objLookup kvs "page" with | some pv => isPyInt pv | none => false) &&
      (match objLookup kvs "lines" with | some (.arr _) => true | _ => false)
  | _ => false

/-- Python `line_idx >= 0 and line_idx < n`: defined for numbers (`int`,
`bool`, `float`), a `TypeError` for every other operand. -/
def lineBoundsCheck (n : Nat) : JValue → Except String Bool
  | .int i => .ok (decide (0 ≤ i ∧ i < (n : Int)))
  | .bool b => .ok (decide ((if b then (1 : Int) else 0) < (n : Int)))
  | .num q => .ok (decide (0 ≤ q ∧ q < (n : Rat)))
  | _ => .error "TypeError: comparison with int unsupported"

/-- Python `lines[line_idx]` (reached only after the bounds check succeeded):
list indices must be `int` (or `bool`); a `float` index is a `TypeError`. -/
def pyLineAt (lines : List Line) : JValue → Except String Line
  | .int i =>
      match lines.get? i.toNat with
      | some l => .ok l
      | none => .error "IndexError: list index out of range"
  | .bool b =>
      match lines.get? (if b then 1 else 0) with
      | some l => .ok l
      | none => .error "IndexError: list index out of range"
  | _ => .error "TypeError: list indices must be integers"

/-- The `for line_idx in line_indices` loop of `_enrich_citation`: append one
dumped bounding box per in-range index, skip out-of-range indices. -/
def collectBboxes (lines : List Line) : List JValue → Except String (List JValue)
  | [] => .ok []
  | idx :: rest => do
      let inB ← lineBoundsCheck lines.length idx
      if inB then do
        let l ← pyLineAt lines idx
        let tail ← collectBboxes lines rest
        .ok (l.bounding_box.model_dump :: tail)
      else
        collectBboxes lines rest

/-- `{k: v for k, v in citation.items() if k != "lines"}`. -/
def objRemoveKey (kvs : List (String × JValue)) (k : String) : List (String × JValue) :=
  kvs.filter (fun kv => !(kv.1 == k))

/-- `d[k] = v` on a Python dict: replace in place when the key exists,
append otherwise. -/
def objInsert (kvs : List (String × JValue)) (k : String) (v : JValue) :
    List (String × JValue) :=
  if containsKey kvs k then kvs.map (fun kv => if kv.1 == k then (k, v) else kv)
  else kvs ++ [(k, v)]

/-- `_enrich_citation` (utils.py): the page index is the `page` value as a
Python `int` (a boolean page indexes as 0/1); an out-of-range page returns
the citation unchanged; otherwise `lines` is replaced by the collected
`bboxes`.  The `TypeError`/`KeyError` fallbacks are unreachable at the call
site, which is guarded by `_is_citation_dict`. -/
def _enrich_citation (pdf : PDF) (kvs : List (String × JValue)) : Except String JValue :=
  match objLookup kvs "page", objLookup kvs "lines" with
  | some pv, some (.arr line_indices) =>
      match pyIntOf? pv with
      | some p =>
          if h : p < 0 ∨ (pdf.pages.length : Int) ≤ p then .ok (.obj kvs)
          else
            have hp : p.toNat < pdf.pages.length := by omega
            let page := pdf.pages.get ⟨p.toNat, hp⟩
            (collectBboxes page.lines line_indices).map
              (fun bboxes => .obj (objInsert (objRemoveKey kvs "lines") "bboxes" (.arr bboxes)))
      | none => .error "TypeError: page index type unsupported"
  | _, _ => .error "KeyError"

mutual
/-- `_traverse_and_enrich` (utils.py): recursive walk replacing each
citation-shaped dict by its enrichment. -/
def _traverse_and_enrich (pdf : PDF) : JValue → Except String JValue
  | .obj kvs =>
      if _is_citation_dict (.obj kvs) then _enrich_citation pdf kvs
      else (enrichKVs pdf kvs).map .obj
  | .arr xs => (enrichList pdf xs).map .arr
  | v => .ok v

def enrichKVs (pdf : PDF) : List (String × JValue) → Except String (List (String × JValue))
  | [] => .ok []
  | (k, v) :: rest => do
      let v' ← _traverse_and_enrich pdf v
      let rest' ← enrichKVs pdf rest
      .ok ((k, v') :: rest')

def enrichList (pdf : PDF) : List JValue → Except String (List JValue)
  | [] => .ok []
  | v :: rest => do
      let v' ← _traverse_and_enrich pdf v
      let rest' ← enrichList pdf rest
      .ok (v' :: rest')
end

/-- `enrich_citations_with_bboxes` (utils.py): `ValueError` when the document
has no parsed content, otherwise the recursive traversal. -/
def enrich_citations_with_bboxes (response : JValue) (document : PDFDocument) :
    Except String JValue :=
  match document.content with
  | none => .error "ValueError: Document content is None. Parse the document before enriching citations."
  | some pdf => _traverse_and_enrich pdf response

/-! ## `utils.py`: stripping value/citation wrappers -/

/-- `_is_value_citation_dict` (utils.py): a dict with a `value` key, a
`citations` key, and exactly two keys. -/
def _is_value_citation_dict : JValue → Bool
  | .obj kvs => containsKey kvs "value" && containsKey kvs "citations" && kvs.length == 2
  | _ => false

mutual
/-- `_strip` (utils.py): replace each value/citation wrapper by its `value`
member; recurse through all other dicts and lists. -/
def _strip : JValue → JValue
  | .obj kvs =>
      if _is_value_citation_dict (.obj kvs) then objGetD kvs "value" .null
      else .obj (stripKVs kvs)
  | .arr xs => .arr (stripList xs)
  | v => v

def stripKVs : List (String × JValue) → List (String × JValue)
  | [] => []
  | (k, v) :: rest => (k, _strip v) :: stripKVs rest

def stripList : List JValue → List JValue
  | [] => []
  | v :: rest => _strip v :: stripList rest
end

/-- `strip_citations` (utils.py). -/
def strip_citations (response : JValue) : JValue :=
  _strip response

/-! ## `pydantic_to_json_instance_schema.py`: the schema compiler

A Pydantic model is embedded as a Record Descriptor: an ordered list of
fields, each a name, per-field metadata (`description`, `examples`,
`default` / `default_factory`), and a type annotation.  The annotation
grammar covers exactly the shapes the source inspects: the primitive leaf
kinds, enums, dict-like types, `list[T]` (including an unparameterized bare
`list`), `Optional[T]`, nested models, and a catch-all for unrecognized
types. -/

/-- A Python value usable as a declared field default or example: the enum
case carries the class name, the member name, and the `str()` rendering of
its underlying `.value`. -/
inductive PyValue where
  | str (s : String)
  | int (n : Int)
  | boolV (b : Bool)
  | enumMember (cls : String) (member : String) (val : String)

/-- The default-related state of a `FieldInfo`: `PydanticUndefined`, an
explicit `None` default, a plain declared value, or a `default_factory`. -/
inductive PyDefault where
  | undefined
  | noneDefault
  | value (v : PyValue)
  | factory

/-- The non-recursive metadata of one Pydantic field. -/
structure FieldMeta where
  description : String
  examples : List PyValue
  default : PyDefault

/-- Type annotations as inspected by the compiler.  `listT none` is a bare
unparameterized `list`; `optionalT t` is `Optional[t]`; `record fields` is a
nested `BaseModel` given by its ordered field list. -/
inductive FieldType where
  | stringT
  | integerT
  | numberT
  | booleanT
  | datetimeT
  | dateT
  | enumT
  | dictT
  | listT (t : Option FieldType)
  | optionalT (t : FieldType)
  | record (fields : List (String × FieldMeta × FieldType))
  | unknown

/-- A Record Descriptor: the ordered `model_fields` of a Pydantic model. -/
abbrev RecordDescriptor := List (String × FieldMeta × FieldType)

/-- `get_type_string` (pydantic_to_json_instance_schema.py): `Union`/`Optional`
descends into the first non-`None` argument, `list` into its element type (a
bare `list` degrades to `"string"`), dicts map to `"object"`, enums to
`"string"`, and anything outside the basic-type table (including nested
models and unrecognized types) defaults to `"string"`. -/
def get_type_string : FieldType → String
  | .optionalT t => get_type_string t
  | .listT (some t) => get_type_string t
  | .listT none => "string"
  | .dictT => "object"
  | .enumT => "string"
  | .stringT => "string"
  | .integerT => "integer"
  | .numberT => "number"
  | .booleanT => "boolean"
  | .datetimeT => "string"
  | .dateT => "string"
  | .record _ => "string"
  | .unknown => "string"

/-- The single `Union`-unwrapping step shared by `is_nested_model`,
`get_nested_model_type` and `is_list_type`. -/
def unwrapOptional : FieldType → FieldType
  | .optionalT t => t
  | t => t

/-- `is_list_type` (pydantic_to_json_instance_schema.py). -/
def is_list_type (t : FieldType) : Bool :=
  match unwrapOptional t with
  | .listT _ => true
  | _ => false

/-- `is_nested_model` (pydantic_to_json_instance_schema.py): unwrap
`Optional`, then `list`, then test for a `BaseModel`. -/
def is_nested_model (t : FieldType) : Bool :=
  match unwrapOptional t with
  | .listT (some u) => match u with | .record _ => true | _ => false
  | .record _ => true
  | _ => false

/-- `get_nested_model_type` (pydantic_to_json_instance_schema.py). -/
def get_nested_model_type (t : FieldType) : FieldType :=
  match unwrapOptional t with
  | .listT (some u) => u
  | u => u

/-- The nested-record dispatch of the compiler loop, as one total match: the
field lists of the shapes `is_nested_model` accepts, `none` otherwise.
`nestedRecordFields_spec` below proves it agrees with the source's
`is_nested_model` / `get_nested_model_type` pair. -/
def nestedRecordFields : FieldType → Option RecordDescriptor
  | .record fs => some fs
  | .listT (some (.record fs)) => some fs
  | .optionalT (.record fs) => some fs
  | .optionalT (.listT (some (.record fs))) => some fs
  | _ => none

/-- Python `str()` as used in f-string interpolation of a default value. -/
def pyFormat : PyValue → String
  | .str s => s
  | .int n => toString n
  | .boolV b => if b then "True" else "False"
  | .enumMember cls member _ => cls ++ "." ++ member

/-- Python `repr()` as used when a list of examples is interpolated. -/
def pyRepr : PyValue → String
  | .str s => "'" ++ s ++ "'"
  | .int n => toString n
  | .boolV b => if b then "True" else "False"
  | .enumMember cls member v => "<" ++ cls ++ "." ++ member ++ ": '" ++ v ++ "'>"

/-- The f-string rendering of the `examples` list. -/
def pyListRepr (xs : List PyValue) : String :=
  "[" ++ String.intercalate ", " (xs.map pyRepr) ++ "]"

/-- The `default` local of the compiler loop: a plain non-`None` declared
default wins; otherwise a `default_factory` yields the sentinel string
`"factory"`; otherwise there is no default. -/
def resolveDefault : PyDefault → Option PyValue
  | .undefined => none
  | .noneDefault => none
  | .value v => some v
  | .factory => some (.str "factory")

/-- Python `default == "factory"`: only a `str` compares equal to a `str`. -/
def pyEqFactory : PyValue → Bool
  | .str s => s == "factory"
  | _ => false

/-- The `default: ...` comment part: the factory sentinel renders as
`default: []`, an enum default renders its underlying value, everything else
renders via `str()`. -/
def defaultComment (d : PyValue) : String :=
  if pyEqFactory d then "default: []"
  else
    match d with
    | .enumMember _ _ v => "default: " ++ v
    | d => "default: " ++ pyFormat d

/-- The `comment_parts` list of the compiler loop, in source order:
description, examples, default. -/
def commentParts (meta : FieldMeta) : List String :=
  (if meta.description == "" then [] else ["desc: " ++ meta.description]) ++
  (if meta.examples.isEmpty then [] else ["examples: " ++ pyListRepr meta.examples]) ++
  (match resolveDefault meta.default with
   | none => []
   | some d => [defaultComment d])

/-- `" | ".join(comment_parts) if comment_parts else ""`. -/
def buildComment (meta : FieldMeta) : String :=
  String.intercalate " | " (commentParts meta)

/-- Citation granularity (`citation_level` argument). -/
inductive CitationLevel where
  | page
  | line
deriving DecidableEq

/-- `_citation_item_schema` (pydantic_to_json_instance_schema.py). -/
def _citation_item_schema : CitationLevel → JValue
  | .page => .obj [("page", .str "<integer>")]
  | .line => .obj [("page", .str "<integer>"), ("lines", .arr [.str "<integer>"])]

/-- The leaf emitted for a non-nested field: the value/comment/citations
wrapper when citations are enabled, a bare placeholder otherwise. -/
def leafSchema (cl : CitationLevel) (citation : Bool) (meta : FieldMeta)
    (t : FieldType) : JValue :=
  let type_str := get_type_string t
  if citation then
    .obj [("value", .str ("<" ++ type_str ++ ">")),
          ("comment", .str (buildComment meta)),
          ("citations", .arr [_citation_item_schema cl])]
  else
    .str ("<" ++ type_str ++ ">")

mutual
/-- The per-field body of the compiler loop: nested models recurse (re-wrapped
in a one-element list when the field is list-typed), everything else emits a
leaf (likewise list-wrapped when the field is list-typed).  The nested-model
dispatch expands the source's `is_nested_model` / `get_nested_model_type`
calls into the four type shapes they accept; `nestedRecordFields_spec` proves
the correspondence. -/
def fieldSchema (cl : CitationLevel) (citation : Bool) (meta : FieldMeta) :
    FieldType → JValue
  | .record fs => .obj (instSchemaFields cl citation fs)
  | .listT (some (.record fs)) => .arr [.obj (instSchemaFields cl citation fs)]
  | .optionalT (.record fs) => .obj (instSchemaFields cl citation fs)
  | .optionalT (.listT (some (.record fs))) => .arr [.obj (instSchemaFields cl citation fs)]
  | t =>
      if is_list_type t then .arr [leafSchema cl citation meta t]
      else leafSchema cl citation meta t

/-- The `for field_name, field_info in model.model_fields.items()` loop,
in declared field order. -/
def instSchemaFields (cl : CitationLevel) (citation : Bool) :
    RecordDescriptor → List (String × JValue)
  | [] => []
  | (fieldName, meta, t) :: rest =>
      (fieldName, fieldSchema cl citation meta t) :: instSchemaFields cl citation rest
end

/-- `pydantic_to_json_instance_schema` (pydantic_to_json_instance_schema.py). -/
def pydantic_to_json_instance_schema (model : RecordDescriptor)
    (citation_level : CitationLevel := .line) (citation : Bool := true) : JValue :=
  .obj (instSchemaFields citation_level citation model)

/-! ## `formatter.py`: line-numbered formatting -/

/-- The inner `for line_number, line in enumerate(page.lines)` loop of
`_format_with_line_numbers`, accumulating `f"{line_number}: {line.text}" + "\n"`. -/
def pageLinesText (lines : List Line) (line_number : Nat) (acc : String) : String :=
  match lines with
  | [] => acc
  | l :: rest =>
      pageLinesText rest (line_number + 1) (acc ++ (toString line_number ++ ": " ++ l.text ++ "\n"))

/-- The page loop of `_format_with_line_numbers`, producing one tagged block
per page. -/
def pageBlocks (pages : List Page) (page_number : Nat) : List String :=
  match pages with
  | [] => []
  | page :: rest =>
      ("<page number=" ++ toString page_number ++ ">\n" ++ pageLinesText page.lines 0 "" ++ "</page>")
        :: pageBlocks rest (page_number + 1)

/-- `DigitalPDFFormatter._format_with_line_numbers` (formatter.py): raises
when the content has no pages. -/
def _format_with_line_numbers (content : PDF) : Except String (List String) :=
  if content.pages.isEmpty then
    .error "ValueError: PDFFormatter: format_for_llm: Document pages are not set"
  else
    .ok (pageBlocks content.pages 0)

/-- The inner loop of `_format_without_line_numbers`. -/
def pageLinesTextPlain (lines : List Line) (acc : String) : String :=
  match lines with
  | [] => acc
  | l :: rest => pageLinesTextPlain rest (acc ++ (l.text ++ "\n"))

/-- The page loop of `_format_without_line_numbers`. -/
def pageBlocksPlain (pages : List Page) (page_number : Nat) : List String :=
  match pages with
  | [] => []
  | page :: rest =>
      ("<page number=" ++ toString page_number ++ ">\n" ++ pageLinesTextPlain page.lines "" ++ "</page>")
        :: pageBlocksPlain rest (page_number + 1)

/-- `DigitalPDFFormatter._format_without_line_numbers` (formatter.py). -/
def _format_without_line_numbers (content : PDF) : Except String (List String) :=
  if content.pages.isEmpty then
    .error "ValueError: PDFFormatter: format_for_llm: Document pages are not set"
  else
    .ok (pageBlocksPlain content.pages 0)

/-- The `page_numbers` filtering step of `format_document_for_llm`: applied
only when both the requested list and the parsed pages are non-empty; the
sort/dedupe of the source is order-irrelevant because the list is only used
for membership tests. -/
def filterPages (content : PDF) (page_numbers : Option (List Nat)) : PDF :=
  match page_numbers with
  | none => content
  | some pns =>
      if pns.isEmpty || content.pages.isEmpty then content
      else ⟨((content.pages.enum).filter (fun pi => pi.1 ∈ pns)).map (fun pi => pi.2)⟩

/-- `DigitalPDFFormatter.format_document_for_llm` (formatter.py): content must
be parsed; multi-pass is unimplemented; the line-numbered path is taken
exactly when citations are included in single-pass mode; page blocks are
joined by a blank line. -/
def format_document_for_llm (document : PDFDocument)
    (page_numbers : Option (List Nat) := none) : Except String String :=
  match document.content with
  | none => .error "ValueError: DigitalPDFFormatter: Document content is None."
  | some content =>
      let content := filterPages content page_numbers
      if document.extraction_mode = .multi_pass then
        .error "NotImplementedError: Multi-pass extraction is not implemented yet"
      else if document.include_citations && document.extraction_mode = .single_pass then
        (_format_with_line_numbers content).map (fun blocks => String.intercalate "\n\n" blocks)
      else
        (_format_without_line_numbers content).map (fun blocks => String.intercalate "\n\n" blocks)

/-! ## Structural shape of schemas

`Shape` is the record/list skeleton of an instance schema: leaves,
field-name-labelled record nodes, and list nodes (the compiler only ever
emits one-element lists).  `descShapeField` reads the expected skeleton off a
Record Descriptor; `schemaShape` reads the actual skeleton off a compiled
`JValue` (with citations enabled, a value/comment/citations wrapper counts as
a leaf). -/

inductive Shape where
  | leaf
  | node (kvs : List (String × Shape))
  | listNode (xs : List Shape)

/-- The exact dict shape of a citation-enabled compiled leaf. -/
def isWrapperLeaf : JValue → Bool
  | .obj [("value", .str _), ("comment", _), ("citations", _)] => true
  | _ => false

mutual
/-- The skeleton of a compiled instance schema: under `citation = true` the
leaf wrappers count as leaves, all other dicts are record nodes. -/
def schemaShape (citation : Bool) : JValue → Shape
  | .obj kvs =>
      if citation && isWrapperLeaf (.obj kvs) then .leaf
      else .node (schemaShapeKVs citation kvs)
  | .arr xs => .listNode (schemaShapeList citation xs)
  | _ => .leaf

def schemaShapeKVs (citation : Bool) : List (String × JValue) → List (String × Shape)
  | [] => []
  | (k, v) :: rest => (k, schemaShape citation v) :: schemaShapeKVs citation rest

def schemaShapeList (citation : Bool) : List JValue → List Shape
  | [] => []
  | v :: rest => schemaShape citation v :: schemaShapeList citation rest
end

mutual
/-- The skeleton a Record Descriptor prescribes: nested records become record
nodes, list-typed fields a one-element list node, and every other field a
leaf. -/
def descShapeField (t : FieldType) : Shape :=
  match t with
  | .record fs => .node (descShapeFields fs)
  | .listT (some (.record fs)) => .listNode [.node (descShapeFields fs)]
  | .optionalT (.record fs) => .node (descShapeFields fs)
  | .optionalT (.listT (some (.record fs))) => .listNode [.node (descShapeFields fs)]
  | t => if is_list_type t then .listNode [.leaf] else .leaf

def descShapeFields : RecordDescriptor → List (String × Shape)
  | [] => []
  | (fieldName, _, t) :: rest => (fieldName, descShapeField t) :: descShapeFields rest
end

/-! ## Synthetic responses and the round-trip law

`synthField` / `synthFields` describe every synthetic response whose shape
matches the citation-enabled compiled template of a Record Descriptor: record
nesting and one-element list wrapping as compiled, with every compiler-wrapped
leaf replaced by a mapping with exactly the `value` and `citations` keys.
`shapeMatches` compares the stripped result against the citation-disabled
template, treating template leaf placeholders as matching anything.
`collidesVC` marks the known hazardous descriptor shape: a record whose field
set is exactly `{value, citations}` looks like a leaf wrapper to the strip
pass. -/

mutual
/-- Synthetic response for one field of the citation-enabled template. -/
def synthField : FieldType → JValue → Bool
  | .record fs, .obj kvs => synthFields fs kvs
  | .record _, _ => false
  | .listT (some (.record fs)), .arr [.obj kvs] => synthFields fs kvs
  | .listT (some (.record _)), _ => false
  | .optionalT (.record fs), .obj kvs => synthFields fs kvs
  | .optionalT (.record _), _ => false
  | .optionalT (.listT (some (.record fs))), .arr [.obj kvs] => synthFields fs kvs
  | .optionalT (.listT (some (.record _))), _ => false
  | t, v =>
      if is_list_type t then
        match v with
        | .arr [w] => _is_value_citation_dict w
        | _ => false
      else _is_value_citation_dict v

/-- Synthetic response for a record: same field names in declared order, each
value synthetic for its field. -/
def synthFields : RecordDescriptor → List (String × JValue) → Bool
  | [], [] => true
  | (n, _, t) :: rest, (k, v) :: kvs => (n == k) && synthField t v && synthFields rest kvs
  | _, _ => false
end

/-- A synthetic response for a whole Record Descriptor. -/
def synthResponse (model : RecordDescriptor) (resp : JValue) : Bool :=
  match resp with
  | .obj kvs => synthFields model kvs
  | _ => false

mutual
/-- `shapeMatches template v`: `v` has the record/list skeleton of the
citation-disabled template (a `.str` template leaf matches any value). -/
def shapeMatches : JValue → JValue → Bool
  | .str _, _ => true
  | .obj ts, .obj vs => shapeMatchesKVs ts vs
  | .arr ts, .arr vs => shapeMatchesArr ts vs
  | _, _ => false

def shapeMatchesKVs : List (String × JValue) → List (String × JValue) → Bool
  | [], [] => true
  | (k, t) :: ts, (k', v) :: vs => (k == k') && shapeMatches t v && shapeMatchesKVs ts vs
  | _, _ => false

def shapeMatchesArr : List JValue → List JValue → Bool
  | [], [] => true
  | t :: ts, v :: vs => shapeMatches t v && shapeMatchesArr ts vs
  | _, _ => false
end

/-- A record whose field set is exactly `{value, citations}`: its synthetic
response is itself shaped like a leaf wrapper. -/
def collidesVC (fs : RecordDescriptor) : Bool :=
  fs.length == 2 && (fs.map (fun f => f.1)).contains "value" &&
    (fs.map (fun f => f.1)).contains "citations"

mutual
def noCollisionList : RecordDescriptor → Bool
  | [] => true
  | (_, _, t) :: rest => noCollisionType t && noCollisionList rest

def noCollisionType : FieldType → Bool
  | .record fs => !collidesVC fs && noCollisionList fs
  | .listT (some t) => noCollisionType t
  | .optionalT t => noCollisionType t
  | _ => true
end

/-- No record anywhere in the descriptor (the descriptor itself included) has
exactly the field set `{value, citations}`. -/
def noCollisionFields (fs : RecordDescriptor) : Bool :=
  !collidesVC fs && noCollisionList fs

/-! ## Well-formed citation indices -/

/-- Every entry of a citation's `lines` list is an integer. -/
def intLines : List JValue → Bool
  | [] => true
  | .int _ :: rest => intLines rest
  | _ :: _ => false

mutual
/-- Every citation-shaped dict reachable by the enrichment traversal has
integer `lines` entries (citation dicts are replaced wholesale, so their
other members are not traversed). -/
def wellFormedCitations : JValue → Bool
  | .obj kvs =>
      if _is_citation_dict (.obj kvs) then
        match objLookup kvs "lines" with
        | some (.arr ls) => intLines ls
        | _ => false
      else wfKVs kvs
  | .arr xs => wfArr xs
  | _ => true

def wfKVs : List (String × JValue) → Bool
  | [] => true
  | (_, v) :: rest => wellFormedCitations v && wfKVs rest

def wfArr : List JValue → Bool
  | [] => true
  | v :: rest => wellFormedCitations v && wfArr rest
end

/-! ## Concrete sample data for witnesses and counterexamples -/

/-- A sample normalized bounding box. -/
def sampleBBox : BoundingBox := ⟨1/10, 1/5, 1/2, 1/4⟩

/-- A second sample bounding box. -/
def sampleBBox2 : BoundingBox := ⟨3/10, 2/5, 7/10, 9/20⟩

/-- A sample parsed PDF: two pages, the first with two lines. -/
def samplePDF : PDF :=
  ⟨[⟨[⟨"hello", sampleBBox⟩, ⟨"world", sampleBBox2⟩], 100, 200⟩,
    ⟨[⟨"p2", sampleBBox⟩], 100, 200⟩]⟩

/-- A sample parsed document in citation-including single-pass mode. -/
def sampleDoc : PDFDocument := ⟨some samplePDF, true, .single_pass⟩

/-- An unparsed document (no content). -/
def unparsedDoc : PDFDocument := ⟨none, true, .single_pass⟩

/-- A response whose citation has a string entry in `lines`: the traversal
hits a dynamic type error on `"x" >= 0`. -/
def badLinesResp : JValue :=
  .obj [("c", .obj [("page", .int 0), ("lines", .arr [.str "x"])])]

/-- A response whose citation has a boolean page (`True` is an `int` in
Python, indexing page 1) and a string entry in `lines`: the program treats it
as a citation and raises on `"x" >= 0`. -/
def boolPageResp : JValue :=
  .obj [("c", .obj [("page", .bool true), ("lines", .arr [.str "x"])])]

/-- Field metadata with only a description. -/
def descMeta (d : String) : FieldMeta := ⟨d, [], .undefined⟩

/-- A Record Descriptor whose top-level field set is exactly
`{value, citations}` — the shape on which the strip pass misfires. -/
def collidingModel : RecordDescriptor :=
  [("value", descMeta "", .record [("x", descMeta "", .stringT)]),
   ("citations", descMeta "", .stringT)]

/-- A synthetic response matching `collidingModel`'s citation-enabled
template. -/
def collidingResp : JValue :=
  .obj [("value", .obj [("x", .obj [("value", .str "a"), ("citations", .arr [])])]),
        ("citations", .obj [("value", .str "b"), ("citations", .arr [])])]

/-- A small well-behaved Record Descriptor for witnesses. -/
def sampleModel : RecordDescriptor :=
  [("name", descMeta "full name", .stringT),
   ("ids", descMeta "ids", .listT (some .integerT)),
   ("address", descMeta "address", .record
      [("street", descMeta "street name", .stringT),
       ("city", descMeta "city name", .stringT)])]

/-- A synthetic response matching `sampleModel`'s citation-enabled template. -/
def sampleResp : JValue :=
  .obj [("name", .obj [("value", .str "Zeel"), ("citations",
           .arr [.obj [("page", .int 0), ("lines", .arr [.int 1])]])]),
        ("ids", .arr [.obj [("value", .int 101), ("citations", .arr [])]]),
        ("address", .obj
          [("street", .obj [("value", .str "s"), ("citations", .arr [])]),
           ("city", .obj [("value", .str "c"), ("citations", .arr [])])])]

/-- The compiler's nested-record dispatch in `fieldSchema` agrees with the
source's `is_nested_model` / `get_nested_model_type` pair: `nestedRecordFields`
yields the fields of some record exactly when `is_nested_model` accepts the
type, and then that record is `get_nested_model_type`'s result. -/
theorem nestedRecordFields_spec (t : FieldType) :
    (∀ fs, nestedRecordFields t = some fs →
        is_nested_model t = true ∧ get_nested_model_type t = .record fs) ∧
    (nestedRecordFields t = none → is_nested_model t = false) := by
  constructor
  · intro fs h
    cases t with
    | record fs' => simp_all [nestedRecordFields, is_nested_model, get_nested_model_type, unwrapOptional]
    | listT ot =>
        cases ot with
        | none => simp_all [nestedRecordFields]
        | some u =>
            cases u <;>
              simp_all [nestedRecordFields, is_nested_model, get_nested_model_type, unwrapOptional]
    | optionalT u =>
        cases u with
        | listT ot =>
            cases ot with
            | none => simp_all [nestedRecordFields]
            | some w =>
                cases w <;>
                  simp_all [nestedRecordFields, is_nested_model, get_nested_model_type, unwrapOptional]
        | _ => simp_all [nestedRecordFields, is_nested_model, get_nested_model_type, unwrapOptional]
    | _ => simp_all [nestedRecordFields]
  · intro h
    cases t with
    | record fs' => simp_all [nestedRecordFields]
    | listT ot =>
        cases ot with
        | none => simp [is_nested_model, unwrapOptional]
        | some u => cases u <;> simp_all [nestedRecordFields, is_nested_model, unwrapOptional]
    | optionalT u =>
        cases u with
        | listT ot =>
            cases ot with
            | none => simp [is_nested_model, unwrapOptional]
            | some w => cases w <;> simp_all [nestedRecordFields, is_nested_model, unwrapOptional]
        | record fs' => simp_all [nestedRecordFields]
        | _ => simp [is_nested_model, unwrapOptional]
    | _ => simp [is_nested_model, unwrapOptional]

/-- A compiled field is never a bare string when citations are enabled. -/
theorem fieldSchema_ne_str (cl : CitationLevel) (meta : FieldMeta) (t : FieldType) (s : String) :
    fieldSchema cl true meta t ≠ .str s := by
  cases t with
  | listT ot =>
      cases ot with
      | none => simp [fieldSchema, is_list_type, unwrapOptional]
      | some u => cases u <;> simp [fieldSchema, is_list_type, unwrapOptional, leafSchema]
  | optionalT u =>
      cases u with
      | listT ot =>
          cases ot with
          | none => simp [fieldSchema, is_list_type, unwrapOptional]
          | some w => cases w <;> simp [fieldSchema, is_list_type, unwrapOptional, leafSchema]
      | _ => simp [fieldSchema, is_list_type, unwrapOptional, leafSchema]
  | _ => simp [fieldSchema, is_list_type, unwrapOptional, leafSchema]

/-- A record node compiled with citations enabled is never mistaken for a
leaf wrapper: its first field's value is itself a compiled field, hence not a
bare string. -/
theorem isWrapperLeaf_instSchemaFields (cl : CitationLevel) (fs : RecordDescriptor) :
    isWrapperLeaf (.obj (instSchemaFields cl true fs)) = false := by
  match fs with
  | [] => simp [instSchemaFields, isWrapperLeaf]
  | (n₁, m₁, t₁) :: rest =>
      match rest with
      | [] => simp [instSchemaFields, isWrapperLeaf]
      | (n₂, m₂, t₂) :: rest₂ =>
          match rest₂ with
          | [] => simp [instSchemaFields, isWrapperLeaf]
          | (n₃, m₃, t₃) :: rest₃ =>
              match rest₃ with
              | [] =>
                  have h := fieldSchema_ne_str cl m₁ t₁
                  simp only [instSchemaFields, isWrapperLeaf]
                  cases hfs : fieldSchema cl true m₁ t₁ <;> simp_all
              | _ :: _ => simp [instSchemaFields, isWrapperLeaf]

/-- Main structural lemma for the compiler: the skeleton of every compiled
field list is the skeleton its Record Descriptor prescribes. -/
theorem schemaShapeKVs_instSchemaFields (cl : CitationLevel) (cit : Bool) :
    ∀ fs : RecordDescriptor, schemaShapeKVs cit (instSchemaFields cl cit fs) = descShapeFields fs := by
  refine instSchemaFields.induct cl cit
    (fun meta t => schemaShape cit (fieldSchema cl cit meta t) = descShapeField t)
    (fun fs => schemaShapeKVs cit (instSchemaFields cl cit fs) = descShapeFields fs)
    ?_ ?_ ?_ ?_ ?_ ?_ ?_ ?_
  · intro meta fs ih
    cases cit <;>
      simp [fieldSchema, descShapeField, schemaShape, isWrapperLeaf_instSchemaFields, ih]
  · intro meta fs ih
    cases cit <;>
      simp [fieldSchema, descShapeField, schemaShape, schemaShapeList,
        isWrapperLeaf_instSchemaFields, ih]
  · intro meta fs ih
    cases cit <;>
      simp [fieldSchema, descShapeField, schemaShape, isWrapperLeaf_instSchemaFields, ih]
  · intro meta fs ih
    cases cit <;>
      simp [fieldSchema, descShapeField, schemaShape, schemaShapeList,
        isWrapperLeaf_instSchemaFields, ih]
  · intro t meta h1 h2 h3 h4 hlist
    cases t with
    | listT ot =>
        cases ot with
        | none =>
            cases cit <;>
              simp [fieldSchema, descShapeField, schemaShape, schemaShapeList, leafSchema,
                is_list_type, unwrapOptional, isWrapperLeaf]
        | some u =>
            cases u <;> first
              | exact (h2 _ rfl).elim
              | cases cit <;>
                  simp [fieldSchema, descShapeField, schemaShape, schemaShapeList, leafSchema,
                    is_list_type, unwrapOptional, isWrapperLeaf]
    | optionalT u =>
        cases u with
        | listT ot =>
            cases ot with
            | none =>
                cases cit <;>
                  simp [fieldSchema, descShapeField, schemaShape, schemaShapeList, leafSchema,
                    is_list_type, unwrapOptional, isWrapperLeaf]
            | some w =>
                cases w <;> first
                  | exact (h4 _ rfl).elim
                  | cases cit <;>
                      simp [fieldSchema, descShapeField, schemaShape, schemaShapeList, leafSchema,
                        is_list_type, unwrapOptional, isWrapperLeaf]
        | _ => simp [is_list_type, unwrapOptional] at hlist
    | _ => simp [is_list_type, unwrapOptional] at hlist
  · intro t meta h1 h2 h3 h4 hlist
    cases t with
    | record fs => exact (h1 _ rfl).elim
    | listT ot =>
        cases ot with
        | none => simp [is_list_type, unwrapOptional] at hlist
        | some u => simp [is_list_type, unwrapOptional] at hlist
    | optionalT u =>
        cases u with
        | record fs => exact (h3 _ rfl).elim
        | listT ot => simp [is_list_type, unwrapOptional] at hlist
        | _ =>
            cases cit <;>
              simp [fieldSchema, descShapeField, schemaShape, leafSchema,
                is_list_type, unwrapOptional, isWrapperLeaf]
    | _ =>
        cases cit <;>
          simp [fieldSchema, descShapeField, schemaShape, leafSchema,
            is_list_type, unwrapOptional, isWrapperLeaf]
  · simp [instSchemaFields, schemaShapeKVs, descShapeFields]
  · intro fieldName meta t rest ih1 ih2
    simp [instSchemaFields, schemaShapeKVs, descShapeFields, ih1, ih2]

/-- On every type shape the nested-record dispatch rejects, `fieldSchema`
takes the leaf branch of the compiler loop. -/
theorem fieldSchema_eq_of_not_nested (cl : CitationLevel) (cit : Bool) (meta : FieldMeta)
    (t : FieldType) (h : nestedRecordFields t = none) :
    fieldSchema cl cit meta t =
      if is_list_type t then .arr [leafSchema cl cit meta t] else leafSchema cl cit meta t := by
  cases t with
  | record fs => simp [nestedRecordFields] at h
  | listT ot =>
      cases ot with
      | none => simp [fieldSchema, is_list_type, unwrapOptional]
      | some u =>
          cases u <;> first
            | (simp [fieldSchema, is_list_type, unwrapOptional]; done)
            | simp [nestedRecordFields] at h
  | optionalT u =>
      cases u with
      | record fs => simp [nestedRecordFields] at h
      | listT ot =>
          cases ot with
          | none => simp [fieldSchema, is_list_type, unwrapOptional]
          | some w =>
              cases w <;> first
                | (simp [fieldSchema, is_list_type, unwrapOptional]; done)
                | simp [nestedRecordFields] at h
      | _ => simp [fieldSchema, is_list_type, unwrapOptional]
  | _ => simp [fieldSchema, is_list_type, unwrapOptional]

/-- `is_nested_model` rejects a type exactly when the dispatch finds no
nested record. -/
theorem nestedRecordFields_eq_none (t : FieldType) (h : is_nested_model t = false) :
    nestedRecordFields t = none := by
  cases hn : nestedRecordFields t with
  | none => rfl
  | some fs =>
      have := ((nestedRecordFields_spec t).1 fs hn).1
      simp [this] at h

/-- C6: the node returned by the compiler is structurally isomorphic to the
input Record Descriptor: its skeleton (nesting, field names, and the key
order of every record node, recursively) is exactly the skeleton the
descriptor prescribes, the only transformations being the one-element list
wrapping of list-typed fields and the leaf annotation. -/
theorem compile_preserves_structure (model : RecordDescriptor) (cl : CitationLevel)
    (cit : Bool) :
    schemaShape cit (pydantic_to_json_instance_schema model cl cit) =
      .node (descShapeFields model) := by
  cases cit with
  | true =>
      simp [pydantic_to_json_instance_schema, schemaShape, isWrapperLeaf_instSchemaFields,
        schemaShapeKVs_instSchemaFields]
  | false => simp [pydantic_to_json_instance_schema, schemaShape, schemaShapeKVs_instSchemaFields]

/-- C5: the compiler is total — for every syntactically valid Record
Descriptor (arbitrarily nested and list-wrapped) it returns a schema (its
Lean embedding is a total function, so termination and absence of exceptions
hold by construction), and an unrecognized leaf type degrades to the string
placeholder instead of failing. -/
theorem compile_total (model : RecordDescriptor) (cl : CitationLevel) (cit : Bool)
    (meta : FieldMeta) :
    (∃ s : JValue, pydantic_to_json_instance_schema model cl cit = s) ∧
    fieldSchema cl cit meta .unknown = leafSchema cl cit meta .unknown ∧
    get_type_string .unknown = "string" ∧
    leafSchema cl false meta .unknown = .str "<string>" := by
  refine ⟨⟨_, rfl⟩, ?_, rfl, rfl⟩
  simp [fieldSchema, is_list_type, unwrapOptional]

/-- C7: `get_type_string` resolves leaf placeholder kinds by the fixed
mapping (string→string, integer→integer, number→number, boolean→boolean,
enum→string, datetime/date→string, dict-like→object, unrecognized→string),
descending through list and optional wrappers into the first contained
non-`None` type first; the compiler brackets the result into the placeholder
token. -/
theorem get_type_string_mapping :
    get_type_string .stringT = "string" ∧
    get_type_string .integerT = "integer" ∧
    get_type_string .numberT = "number" ∧
    get_type_string .booleanT = "boolean" ∧
    get_type_string .enumT = "string" ∧
    get_type_string .datetimeT = "string" ∧
    get_type_string .dateT = "string" ∧
    get_type_string .dictT = "object" ∧
    get_type_string .unknown = "string" ∧
    (∀ fs : RecordDescriptor, get_type_string (.record fs) = "string") ∧
    (∀ t : FieldType, get_type_string (.optionalT t) = get_type_string t) ∧
    (∀ t : FieldType, get_type_string (.listT (some t)) = get_type_string t) ∧
    (∀ (cl : CitationLevel) (meta : FieldMeta) (t : FieldType),
        leafSchema cl false meta t = .str ("<" ++ get_type_string t ++ ">")) :=
  ⟨rfl, rfl, rfl, rfl, rfl, rfl, rfl, rfl, rfl,
   fun _ => rfl, fun _ => rfl, fun _ => rfl, fun _ _ _ => rfl⟩

/-- C8: the comment of every citation-enabled compiled leaf is built by
joining, in order, the `desc:`, `examples:` and `default:` parts (each only
when present) with the `" | "` separator, empty when none are present; a
default-factory default renders as `default: []`, and an enum default
renders its underlying value, never its symbolic `Class.MEMBER` name. -/
theorem comment_construction (d : String) (ex : List PyValue) (df : PyDefault)
    (cl : CitationLevel) (t : FieldType) :
    leafSchema cl true ⟨d, ex, df⟩ t =
      .obj [("value", .str ("<" ++ get_type_string t ++ ">")),
            ("comment", .str (String.intercalate " | "
              ((if d == "" then [] else ["desc: " ++ d]) ++
               (if ex.isEmpty then [] else ["examples: " ++ pyListRepr ex]) ++
               (match resolveDefault df with
                | none => []
                | some dv => [defaultComment dv])))),
            ("citations", .arr [_citation_item_schema cl])] ∧
    buildComment ⟨"", [], .undefined⟩ = "" ∧
    (resolveDefault .factory = some (.str "factory") ∧
      defaultComment (.str "factory") = "default: []") ∧
    (∀ cls member v : String,
        defaultComment (.enumMember cls member v) = "default: " ++ v ∧
        pyFormat (.enumMember cls member v) = cls ++ "." ++ member) :=
  ⟨rfl, rfl, ⟨rfl, rfl⟩, fun _ _ _ => ⟨rfl, rfl⟩⟩

/-- C10: the factory sentinel is the literal string `"factory"`, so a field
whose declared plain default is the string `"factory"` renders its comment
exactly like a default-factory field — `default: []`, not
`default: factory`. -/
theorem factory_string_default_collision (d : String) (ex : List PyValue) :
    commentParts ⟨d, ex, .value (.str "factory")⟩ = commentParts ⟨d, ex, .factory⟩ ∧
    defaultComment (.str "factory") = "default: []" ∧
    buildComment ⟨"", [], .value (.str "factory")⟩ = "default: []" ∧
    buildComment ⟨"", [], .value (.str "factory")⟩ ≠ "default: factory" :=
  ⟨rfl, rfl, rfl, by decide⟩

/-! ## The formatter's line-numbering contract -/

theorem foldl_append_str (l : List String) (s : String) :
    List.foldl (fun r t => r ++ t) s l = s ++ List.foldl (fun r t => r ++ t) "" l := by
  induction l generalizing s with
  | nil => simp
  | cons t l ih =>
      simp only [List.foldl_cons]
      rw [ih (s ++ t), ih ("" ++ t), String.append_assoc]
      simp

theorem join_cons (s : String) (l : List String) :
    String.join (s :: l) = s ++ String.join l := by
  simp only [String.join, List.foldl_cons]
  rw [foldl_append_str l ("" ++ s)]
  simp

/-- The line loop accumulates, for each line, its zero-based index, `": "`,
the text, and a newline. -/
theorem pageLinesText_eq (lines : List Line) (i : Nat) (acc : String) :
    pageLinesText lines i acc =
      acc ++ String.join ((List.enumFrom i lines).map
        (fun li => toString li.1 ++ ": " ++ li.2.text ++ "\n")) := by
  induction lines generalizing i acc with
  | nil => simp [pageLinesText, String.join]
  | cons l rest ih =>
      simp only [pageLinesText, List.enumFrom, List.map_cons]
      rw [ih (i + 1), join_cons]
      simp [String.append_assoc]

/-- The page loop wraps each page's accumulated text in
`<page number=N>...</page>` tags, `N` being the zero-based page index. -/
theorem pageBlocks_eq (pages : List Page) (n : Nat) :
    pageBlocks pages n =
      (List.enumFrom n pages).map (fun pi =>
        "<page number=" ++ toString pi.1 ++ ">\n" ++
        String.join ((List.enumFrom 0 pi.2.lines).map
          (fun li => toString li.1 ++ ": " ++ li.2.text ++ "\n")) ++
        "</page>") := by
  induction pages generalizing n with
  | nil => simp [pageBlocks]
  | cons page rest ih =>
      simp only [pageBlocks, List.enumFrom, List.map_cons, ih (n + 1)]
      rw [pageLinesText_eq page.lines 0 ""]
      simp

/-- C9: in the line-numbered mode (citations included, single-pass), the
formatter prefixes each line with its zero-based index and `": "`, wraps each
page in `<page number=N>...</page>` tags with `N` the zero-based page index,
and joins the page blocks with a blank line. -/
theorem format_line_numbered (pdf : PDF) (h : pdf.pages ≠ []) :
    format_document_for_llm ⟨some pdf, true, .single_pass⟩ none =
      .ok (String.intercalate "\n\n" ((List.enumFrom 0 pdf.pages).map (fun pi =>
        "<page number=" ++ toString pi.1 ++ ">\n" ++
        String.join ((List.enumFrom 0 pi.2.lines).map
          (fun li => toString li.1 ++ ": " ++ li.2.text ++ "\n")) ++
        "</page>"))) := by
  simp only [format_document_for_llm, filterPages]
  have hmode : (PDFExtractionMode.single_pass = PDFExtractionMode.multi_pass) = False := by
    simp
  rw [if_neg (by simp), if_pos (by simp)]
  simp only [_format_with_line_numbers]
  rw [if_neg (by simpa using h), pageBlocks_eq pdf.pages 0]
  rfl

/-- Witness for C9 at a concrete two-page document. -/
theorem format_line_numbered_witness :
    format_document_for_llm sampleDoc none =
      .ok "<page number=0>\n0: hello\n1: world\n</page>\n\n<page number=1>\n0: p2\n</page>" := by
  have h := format_line_numbered samplePDF (by simp [samplePDF])
  exact h.trans (by rfl)

/-! ## Citation enrichment behavior -/

/-- A successful dict lookup implies dict membership. -/
theorem containsKey_of_objLookup (kvs : List (String × JValue)) (k : String) (v : JValue)
    (h : objLookup kvs k = some v) : containsKey kvs k = true := by
  simp only [objLookup, Option.map_eq_some'] at h
  rcases h with ⟨kv, hfind, hv⟩
  have hmem := List.mem_of_find?_eq_some hfind
  have hpred := List.find?_some hfind
  simp only [containsKey, List.any_eq_true]
  exact ⟨kv, hmem, hpred⟩

/-- The duck-typed citation test, characterized: an `int`-valued `page` in
Python's `isinstance` sense, so booleans qualify too. -/
theorem _is_citation_dict_iff (v : JValue) :
    _is_citation_dict v = true ↔
      ∃ kvs, v = .obj kvs ∧
        (∃ pv, objLookup kvs "page" = some pv ∧ isPyInt pv = true) ∧
        ∃ xs : List JValue, objLookup kvs "lines" = some (.arr xs) := by
  constructor
  · intro h
    cases v with
    | obj kvs =>
        refine ⟨kvs, rfl, ?_, ?_⟩
        · simp only [_is_citation_dict, Bool.and_eq_true] at h
          rcases hpage : objLookup kvs "page" with _ | pv
          · rw [hpage] at h; simp at h
          · rw [hpage] at h
            exact ⟨pv, rfl, h.1.2⟩
        · simp only [_is_citation_dict, Bool.and_eq_true] at h
          rcases hlines : objLookup kvs "lines" with _ | lv
          · rw [hlines] at h; simp at h
          · rw [hlines] at h
            cases lv <;> simp_all
    | _ => simp [_is_citation_dict] at h
  · rintro ⟨kvs, rfl, ⟨pv, hpage, hpint⟩, ⟨xs, hlines⟩⟩
    simp [_is_citation_dict, containsKey_of_objLookup kvs "page" _ hpage,
      containsKey_of_objLookup kvs "lines" _ hlines, hpage, hpint, hlines]

/-- The citation loop on all-integer `lines` collects, in order, one dumped
bounding box per in-range index and skips out-of-range indices. -/
theorem collectBboxes_int (lines : List Line) (ls : List JValue)
    (h : ∀ x ∈ ls, ∃ n : Int, x = .int n) :
    collectBboxes lines ls = .ok (ls.filterMap (fun x =>
      match x with
      | .int i =>
          if 0 ≤ i ∧ i < (lines.length : Int) then
            (lines.get? i.toNat).map (fun l => l.bounding_box.model_dump)
          else none
      | _ => none)) := by
  induction ls with
  | nil => simp [collectBboxes]
  | cons x rest ih =>
      obtain ⟨n, rfl⟩ := h x (List.mem_cons_self x rest)
      have hrest := ih (fun y hy => h y (List.mem_cons_of_mem _ hy))
      by_cases hin : 0 ≤ n ∧ n < (lines.length : Int)
      · have hlt : n.toNat < lines.length := by omega
        simp [collectBboxes, lineBoundsCheck, pyLineAt, hrest, hin,
          List.filterMap_cons, List.get?_eq_get hlt, Bind.bind, Except.bind]
      · simp [collectBboxes, lineBoundsCheck, hrest, hin, List.filterMap_cons,
          Bind.bind, Except.bind]

/-- C2: a mapping is treated as a citation node iff it has an integer-valued
`page` (in Python's `isinstance` sense, so booleans count as 0/1) and a list
`lines`; a citation with out-of-range page is returned completely unchanged
(`lines` retained, no `bboxes` added); a citation with in-range page and
integer line indices has `lines` replaced by a `bboxes` list holding, in
order, one bounding box per index in `[0, len(page.lines))`, out-of-range
indices silently skipped. -/
theorem enrich_citation_spec (pdf : PDF) (kvs : List (String × JValue)) (pv : JValue)
    (p : Int) (ls : List JValue) (hpage : objLookup kvs "page" = some pv)
    (hpv : pyIntOf? pv = some p)
    (hlines : objLookup kvs "lines" = some (.arr ls)) :
    (∀ v : JValue, _is_citation_dict v = true ↔
        ∃ kvs', v = .obj kvs' ∧
          (∃ w, objLookup kvs' "page" = some w ∧ isPyInt w = true) ∧
          ∃ xs : List JValue, objLookup kvs' "lines" = some (.arr xs)) ∧
    (_is_citation_dict (.obj kvs) = true →
        _traverse_and_enrich pdf (.obj kvs) = _enrich_citation pdf kvs) ∧
    ((p < 0 ∨ (pdf.pages.length : Int) ≤ p) → _enrich_citation pdf kvs = .ok (.obj kvs)) ∧
    (0 ≤ p → p < (pdf.pages.length : Int) → (∀ x ∈ ls, ∃ n : Int, x = .int n) →
      ∀ page : Page, pdf.pages.get? p.toNat = some page →
        _enrich_citation pdf kvs = .ok (.obj (objInsert (objRemoveKey kvs "lines") "bboxes"
          (.arr (ls.filterMap (fun x =>
            match x with
            | .int i =>
                if 0 ≤ i ∧ i < (page.lines.length : Int) then
                  (page.lines.get? i.toNat).map (fun l => l.bounding_box.model_dump)
                else none
            | _ => none)))))) := by
  refine ⟨_is_citation_dict_iff, ?_, ?_, ?_⟩
  · intro h
    simp [_traverse_and_enrich, h]
  · intro h
    simp only [_enrich_citation, hpage, hlines, hpv]
    rw [dif_pos h]
  · intro h0 hlen hint page hpageEq
    have hp : p.toNat < pdf.pages.length := by omega
    have hpageGet : pdf.pages.get ⟨p.toNat, hp⟩ = page := by
      rw [List.get?_eq_get hp] at hpageEq
      exact Option.some.inj hpageEq
    simp only [_enrich_citation, hpage, hlines, hpv]
    rw [dif_neg (by omega)]
    simp only [hpageGet, collectBboxes_int page.lines ls hint, Except.map]

/-- Witness for C2 at concrete inputs: on page 0 of the sample document, line
indices `[0, 999]` on a 2-line page yield exactly the bounding box of line 0
(index 999 skipped); and a boolean `page` of `True` indexes page 1, per
Python's bool-as-int. -/
theorem enrich_citation_spec_witness :
    (_enrich_citation samplePDF [("page", .int 0), ("lines", .arr [.int 0, .int 999])] =
      .ok (.obj [("page", .int 0), ("bboxes", .arr [sampleBBox.model_dump])])) ∧
    (_enrich_citation samplePDF [("page", .bool true), ("lines", .arr [.int 0])] =
      .ok (.obj [("page", .bool true), ("bboxes", .arr [sampleBBox.model_dump])])) := by
  constructor
  · have h := (enrich_citation_spec samplePDF
        [("page", .int 0), ("lines", .arr [.int 0, .int 999])] (.int 0) 0
        [.int 0, .int 999] rfl rfl rfl).2.2.2 (by omega) (by simp [samplePDF]) ?_
        ⟨[⟨"hello", sampleBBox⟩, ⟨"world", sampleBBox2⟩], 100, 200⟩ rfl
    · exact h.trans (by rfl)
    · intro x hx
      simp only [List.mem_cons, List.not_mem_nil, or_false] at hx
      rcases hx with rfl | rfl
      · exact ⟨0, rfl⟩
      · exact ⟨999, rfl⟩
  · have h := (enrich_citation_spec samplePDF
        [("page", .bool true), ("lines", .arr [.int 0])] (.bool true) 1
        [.int 0] rfl rfl rfl).2.2.2 (by omega) (by simp [samplePDF]) ?_
        ⟨[⟨"p2", sampleBBox⟩], 100, 200⟩ rfl
    · exact h.trans (by rfl)
    · intro x hx
      simp only [List.mem_cons, List.not_mem_nil, or_false] at hx
      rcases hx with rfl
      exact ⟨0, rfl⟩

/-! ## When enrichment raises -/

theorem intLines_forall (ls : List JValue) (h : intLines ls = true) :
    ∀ x ∈ ls, ∃ n : Int, x = .int n := by
  induction ls with
  | nil => simp
  | cons x rest ih =>
      intro y hy
      cases x with
      | int n =>
          simp only [intLines] at h
          rcases List.mem_cons.mp hy with rfl | hmem
          · exact ⟨n, rfl⟩
          · exact ih h y hmem
      | _ => simp [intLines] at h

/-- A citation dict whose `lines` entries are all integers enriches without
raising. -/
theorem _enrich_citation_ok (pdf : PDF) (kvs : List (String × JValue))
    (hcit : _is_citation_dict (.obj kvs) = true)
    (hwf : (match objLookup kvs "lines" with
            | some (.arr ls) => intLines ls
            | _ => false) = true) :
    ∃ out, _enrich_citation pdf kvs = .ok out := by
  obtain ⟨kvs', heq, ⟨pv, hpage, hpint⟩, ⟨ls, hlines⟩⟩ :=
    (_is_citation_dict_iff (.obj kvs)).mp hcit
  cases heq
  rw [hlines] at hwf
  obtain ⟨p, hp⟩ : ∃ p : Int, pyIntOf? pv = some p := by
    cases pv with
    | int n => exact ⟨n, rfl⟩
    | bool b => exact ⟨if b then 1 else 0, rfl⟩
    | _ => simp [isPyInt] at hpint
  by_cases hrange : p < 0 ∨ (pdf.pages.length : Int) ≤ p
  · exact ⟨.obj kvs, by simp only [_enrich_citation, hpage, hlines, hp]; rw [dif_pos hrange]⟩
  · have hint := intLines_forall ls (by simpa using hwf)
    simp only [_enrich_citation, hpage, hlines, hp]
    rw [dif_neg hrange, collectBboxes_int _ ls hint]
    exact ⟨_, rfl⟩

/-- The enrichment traversal never raises on a response whose citation dicts
all carry integer `lines` entries. -/
theorem traverse_ok (pdf : PDF) :
    ∀ v : JValue, wellFormedCitations v = true → ∃ out, _traverse_and_enrich pdf v = .ok out := by
  refine _traverse_and_enrich.induct pdf
    (fun v => wellFormedCitations v = true → ∃ out, _traverse_and_enrich pdf v = .ok out)
    (fun xs => wfArr xs = true → ∃ out, enrichList pdf xs = .ok out)
    (fun kvs => wfKVs kvs = true → ∃ out, enrichKVs pdf kvs = .ok out)
    ?_ ?_ ?_ ?_ ?_ ?_ ?_ ?_
  · intro kvs hcit hwf
    simp only [wellFormedCitations, hcit, if_true] at hwf
    obtain ⟨out, hout⟩ := _enrich_citation_ok pdf kvs hcit hwf
    exact ⟨out, by simp only [_traverse_and_enrich, hcit, if_true, hout]⟩
  · intro kvs hncit ih hwf
    simp only [wellFormedCitations, hncit, if_false] at hwf
    obtain ⟨out, hout⟩ := ih hwf
    exact ⟨.obj out, by simp [_traverse_and_enrich, hncit, hout, Except.map]⟩
  · intro xs ih hwf
    simp only [wellFormedCitations] at hwf
    obtain ⟨out, hout⟩ := ih hwf
    exact ⟨.arr out, by simp [_traverse_and_enrich, hout, Except.map]⟩
  · intro v hobj harr _
    cases v with
    | obj kvs => exact (hobj _ rfl).elim
    | arr xs => exact (harr _ rfl).elim
    | null => exact ⟨.null, rfl⟩
    | bool b => exact ⟨.bool b, rfl⟩
    | int n => exact ⟨.int n, rfl⟩
    | num q => exact ⟨.num q, rfl⟩
    | str s => exact ⟨.str s, rfl⟩
  · intro _
    exact ⟨[], rfl⟩
  · intro v rest ih1 ih2 hwf
    simp only [wfArr, Bool.and_eq_true] at hwf
    obtain ⟨v', hv⟩ := ih1 hwf.1
    obtain ⟨rest', hrest⟩ := ih2 hwf.2
    exact ⟨v' :: rest', by simp [enrichList, hv, hrest, Bind.bind, Except.bind]⟩
  · intro _
    exact ⟨[], rfl⟩
  · intro k v rest ih1 ih2 hwf
    simp only [wfKVs, Bool.and_eq_true] at hwf
    obtain ⟨v', hv⟩ := ih1 hwf.1
    obtain ⟨rest', hrest⟩ := ih2 hwf.2
    exact ⟨(k, v') :: rest', by simp [enrichKVs, hv, hrest, Bind.bind, Except.bind]⟩

/-- C3 counterexample: the claim "for every document with non-`None` content,
the call never raises on any JSON-like response value, however malformed its
citation page/line indices are" fails — a citation with a string entry in
`lines` on an in-range page makes the Python loop evaluate `"x" >= 0`, a
`TypeError`, although the document is parsed.  The same happens when the page
is the boolean `True` (an `int` to `isinstance`, indexing page 1): the dict
is a citation, the page is in range, and the string `lines` entry raises;
accordingly that response is outside the amended guarantee's well-formedness
condition. -/
theorem enrich_raises_on_string_line_entry :
    (sampleDoc.content).isSome = true ∧
    enrich_citations_with_bboxes badLinesResp sampleDoc =
      .error "TypeError: comparison with int unsupported" ∧
    enrich_citations_with_bboxes boolPageResp sampleDoc =
      .error "TypeError: comparison with int unsupported" ∧
    wellFormedCitations boolPageResp = false :=
  ⟨rfl, rfl, rfl, rfl⟩

/-- C3 (amended): enrichment raises the "document not parsed" error when the
content is absent (checked before traversal), and for a parsed document it
terminates and never raises provided every citation node's `lines` entries
are integers; a non-integer entry (e.g. a string) in a citation whose page is
in range raises a dynamic type error. -/
theorem enrich_error_conditions (doc : PDFDocument) (resp : JValue) :
    (doc.content = none →
        enrich_citations_with_bboxes resp doc =
          .error "ValueError: Document content is None. Parse the document before enriching citations.") ∧
    (∀ pdf : PDF, doc.content = some pdf → wellFormedCitations resp = true →
        ∃ out, enrich_citations_with_bboxes resp doc = .ok out) := by
  constructor
  · intro h
    simp [enrich_citations_with_bboxes, h]
  · intro pdf h hwf
    obtain ⟨out, hout⟩ := traverse_ok pdf resp hwf
    exact ⟨out, by simp [enrich_citations_with_bboxes, h, hout]⟩

/-- Witness for the amended C3: the unparsed document errors, and the sample
synthetic response (integer line indices throughout) enriches successfully. -/
theorem enrich_error_conditions_witness :
    enrich_citations_with_bboxes sampleResp unparsedDoc =
      .error "ValueError: Document content is None. Parse the document before enriching citations." ∧
    ∃ out, enrich_citations_with_bboxes sampleResp sampleDoc = .ok out :=
  ⟨(enrich_error_conditions unparsedDoc sampleResp).1 rfl,
   (enrich_error_conditions sampleDoc sampleResp).2 samplePDF rfl (by rfl)⟩

/-! ## The strip pass and its lock-step with the compiler's wrapping -/

/-- C4: the strip pass unwraps a mapping iff it has exactly the two keys
`value` and `citations` (replacing it by its `value` member, recursing
otherwise), and this predicate is the structural inverse of the compiler's
leaf wrapping: every non-nested field compiled with citations enabled is the
(possibly list-wrapped) `value`/`comment`/`citations` wrapper, and the
corresponding two-key response wrapper is unwrapped to its `value` member. -/
theorem strip_wrappers_inverse (kvs : List (String × JValue)) (cl : CitationLevel)
    (meta : FieldMeta) (t : FieldType) (v c : JValue) :
    (_is_value_citation_dict (.obj kvs) =
        (containsKey kvs "value" && containsKey kvs "citations" && kvs.length == 2)) ∧
    (_is_value_citation_dict (.obj kvs) = true →
        _strip (.obj kvs) = objGetD kvs "value" .null) ∧
    (_is_value_citation_dict (.obj kvs) = false →
        _strip (.obj kvs) = .obj (stripKVs kvs)) ∧
    (is_nested_model t = false →
        fieldSchema cl true meta t =
          (if is_list_type t then
            .arr [.obj [("value", .str ("<" ++ get_type_string t ++ ">")),
                        ("comment", .str (buildComment meta)),
                        ("citations", .arr [_citation_item_schema cl])]]
           else
            .obj [("value", .str ("<" ++ get_type_string t ++ ">")),
                  ("comment", .str (buildComment meta)),
                  ("citations", .arr [_citation_item_schema cl])])) ∧
    (_strip (.obj [("value", v), ("citations", c)]) = v) := by
  refine ⟨rfl, ?_, ?_, ?_, ?_⟩
  · intro h
    simp [_strip, h]
  · intro h
    simp [_strip, h]
  · intro h
    rw [fieldSchema_eq_of_not_nested cl true meta t (nestedRecordFields_eq_none t h)]
    simp [leafSchema]
  · rfl

/-- Witness for C4 at a concrete leaf field and a concrete wrapped response. -/
theorem strip_wrappers_inverse_witness :
    fieldSchema .line true (descMeta "full name") .stringT =
      .obj [("value", .str "<string>"), ("comment", .str "desc: full name"),
            ("citations", .arr [.obj [("page", .str "<integer>"),
                                      ("lines", .arr [.str "<integer>"])]])] ∧
    _strip (.obj [("value", .str "Zeel"), ("citations", .arr [])]) = .str "Zeel" := by
  constructor
  · have h := (strip_wrappers_inverse [] .line (descMeta "full name") .stringT .null
        .null).2.2.2.1 (by rfl)
    exact h.trans (by rfl)
  · exact (strip_wrappers_inverse [] .line (descMeta "full name") .stringT (.str "Zeel")
      (.arr [])).2.2.2.2

/-! ## The round-trip law -/

/-- The exact-arity wrapper test in terms of key membership. -/
theorem wrapper_mem_iff (kvs : List (String × JValue)) :
    _is_value_citation_dict (.obj kvs) = true ↔
      "value" ∈ kvs.map (fun kv => kv.1) ∧ "citations" ∈ kvs.map (fun kv => kv.1) ∧
        kvs.length = 2 := by
  simp [_is_value_citation_dict, containsKey, List.any_eq_true, List.mem_map, and_assoc]

/-- The collision test in terms of key membership. -/
theorem collidesVC_iff (fs : RecordDescriptor) :
    collidesVC fs = true ↔
      fs.length = 2 ∧ "value" ∈ fs.map (fun f => f.1) ∧
        "citations" ∈ fs.map (fun f => f.1) := by
  simp [collidesVC, List.elem_iff, and_assoc]

/-- A synthetic response has exactly the descriptor's field names, in order. -/
theorem synthFields_names : ∀ (fs : RecordDescriptor) (kvs : List (String × JValue)),
    synthFields fs kvs = true →
      kvs.map (fun kv => kv.1) = fs.map (fun f => f.1)
  | [], [], _ => rfl
  | [], (k, v) :: kvs, h => by simp [synthFields] at h
  | (n, m, t) :: fs, [], h => by simp [synthFields] at h
  | (n, m, t) :: fs, (k, v) :: kvs, h => by
      simp only [synthFields, Bool.and_eq_true, beq_iff_eq] at h
      simp only [List.map_cons, synthFields_names fs kvs h.2, h.1.1]

/-- On a collision-free record, a synthetic record response is never mistaken
for a value/citation wrapper. -/
theorem not_wrapper_of_synth (fs : RecordDescriptor) (kvs : List (String × JValue))
    (hs : synthFields fs kvs = true) (hnc : collidesVC fs = false) :
    _is_value_citation_dict (.obj kvs) = false := by
  cases hw : _is_value_citation_dict (.obj kvs) with
  | false => rfl
  | true =>
      exfalso
      obtain ⟨hv, hc, hl⟩ := (wrapper_mem_iff kvs).mp hw
      have hnames := synthFields_names fs kvs hs
      rw [hnames] at hv hc
      have hlen : fs.length = 2 := by
        have := congrArg List.length hnames
        simpa [hl] using this.symm
      rw [(collidesVC_iff fs).mpr ⟨hlen, hv, hc⟩] at hnc
      exact Bool.noConfusion hnc

/-- Exclusion of the four nested-record shapes yields `none` from the
dispatch. -/
theorem nestedRecordFields_none_of (t : FieldType)
    (h1 : ∀ fs, t = FieldType.record fs → False)
    (h2 : ∀ fs, t = FieldType.listT (some (FieldType.record fs)) → False)
    (h3 : ∀ fs, t = FieldType.optionalT (FieldType.record fs) → False)
    (h4 : ∀ fs, t = FieldType.optionalT (FieldType.listT (some (FieldType.record fs))) → False) :
    nestedRecordFields t = none := by
  cases t with
  | record fs => exact (h1 fs rfl).elim
  | listT ot =>
      cases ot with
      | none => rfl
      | some u =>
          cases u with
          | record fs => exact (h2 fs rfl).elim
          | _ => rfl
  | optionalT u =>
      cases u with
      | record fs => exact (h3 fs rfl).elim
      | listT ot =>
          cases ot with
          | none => rfl
          | some w =>
              cases w with
              | record fs => exact (h4 fs rfl).elim
              | _ => rfl
      | _ => rfl
  | _ => rfl

/-- On every non-nested type shape, the synthetic-response test is the leaf
wrapper test (list-wrapped when the field is list-typed). -/
theorem synthField_leaf (t : FieldType) (v : JValue)
    (h : nestedRecordFields t = none) :
    synthField t v =
      (if is_list_type t then
        match v with
        | .arr [w] => _is_value_citation_dict w
        | _ => false
      else _is_value_citation_dict v) := by
  cases t with
  | record fs => simp [nestedRecordFields] at h
  | listT ot =>
      cases ot with
      | none => cases v <;> simp [synthField, is_list_type, unwrapOptional]
      | some u =>
          cases u <;> first
            | (cases v <;> simp [synthField, is_list_type, unwrapOptional]; done)
            | simp [nestedRecordFields] at h
  | optionalT u =>
      cases u with
      | record fs => simp [nestedRecordFields] at h
      | listT ot =>
          cases ot with
          | none => cases v <;> simp [synthField, is_list_type, unwrapOptional]
          | some w =>
              cases w <;> first
                | (cases v <;> simp [synthField, is_list_type, unwrapOptional]; done)
                | simp [nestedRecordFields] at h
      | _ => cases v <;> simp [synthField, is_list_type, unwrapOptional]
  | _ => cases v <;> simp [synthField, is_list_type, unwrapOptional]

/-- Main lemma for the round-trip law: on a collision-free descriptor, the
strip of any synthetic field list matches the citation-disabled template's
shape, pointwise. -/
theorem synth_strip_fields (cl : CitationLevel) :
    ∀ (fs : RecordDescriptor) (kvs : List (String × JValue)),
      noCollisionList fs = true → synthFields fs kvs = true →
        shapeMatchesKVs (instSchemaFields cl false fs) (stripKVs kvs) = true := by
  refine synthFields.induct
    (fun t v => noCollisionType t = true → synthField t v = true →
      ∀ meta : FieldMeta, shapeMatches (fieldSchema cl false meta t) (_strip v) = true)
    (fun fs kvs => noCollisionList fs = true → synthFields fs kvs = true →
      shapeMatchesKVs (instSchemaFields cl false fs) (stripKVs kvs) = true)
    ?_ ?_ ?_ ?_ ?_ ?_ ?_ ?_ ?_ ?_ ?_ ?_ ?_ ?_
  · intro fs kvs ih hnoc hsynth meta
    simp only [noCollisionType, Bool.and_eq_true, Bool.not_eq_true'] at hnoc
    simp only [synthField] at hsynth
    have hw := not_wrapper_of_synth fs kvs hsynth hnoc.1
    simp only [fieldSchema, _strip, hw, Bool.false_eq_true, if_false]
    simp only [shapeMatches]
    exact ih hnoc.2 hsynth
  · intro fields x hx hnoc hsynth meta
    cases x with
    | obj kvs => exact (hx kvs rfl).elim
    | _ => simp [synthField] at hsynth
  · intro fs kvs ih hnoc hsynth meta
    simp only [noCollisionType, Bool.and_eq_true, Bool.not_eq_true'] at hnoc
    simp only [synthField] at hsynth
    have hw := not_wrapper_of_synth fs kvs hsynth hnoc.1
    simp only [fieldSchema, _strip, stripList, hw, Bool.false_eq_true, if_false]
    simp only [shapeMatches, shapeMatchesArr, Bool.and_true]
    exact ih hnoc.2 hsynth
  · intro fields x hx hnoc hsynth meta
    cases x with
    | arr xs =>
        match xs with
        | [] => simp [synthField] at hsynth
        | [w] =>
            cases w with
            | obj kvs => exact (hx kvs rfl).elim
            | _ => simp [synthField] at hsynth
        | w :: w2 :: rest => cases w <;> simp [synthField] at hsynth
    | _ => simp [synthField] at hsynth
  · intro fs kvs ih hnoc hsynth meta
    simp only [noCollisionType, Bool.and_eq_true, Bool.not_eq_true'] at hnoc
    simp only [synthField] at hsynth
    have hw := not_wrapper_of_synth fs kvs hsynth hnoc.1
    simp only [fieldSchema, _strip, hw, Bool.false_eq_true, if_false]
    simp only [shapeMatches]
    exact ih hnoc.2 hsynth
  · intro fields x hx hnoc hsynth meta
    cases x with
    | obj kvs => exact (hx kvs rfl).elim
    | _ => simp [synthField] at hsynth
  · intro fs kvs ih hnoc hsynth meta
    simp only [noCollisionType, Bool.and_eq_true, Bool.not_eq_true'] at hnoc
    simp only [synthField] at hsynth
    have hw := not_wrapper_of_synth fs kvs hsynth hnoc.1
    simp only [fieldSchema, _strip, stripList, hw, Bool.false_eq_true, if_false]
    simp only [shapeMatches, shapeMatchesArr, Bool.and_true]
    exact ih hnoc.2 hsynth
  · intro fields x hx hnoc hsynth meta
    cases x with
    | arr xs =>
        match xs with
        | [] => simp [synthField] at hsynth
        | [w] =>
            cases w with
            | obj kvs => exact (hx kvs rfl).elim
            | _ => simp [synthField] at hsynth
        | w :: w2 :: rest => cases w <;> simp [synthField] at hsynth
    | _ => simp [synthField] at hsynth
  · intro t h1 h2 h3 h4 hlist w _ _ _ _ hnoc hsynth meta
    have hnone := nestedRecordFields_none_of t h1 h2 h3 h4
    rw [fieldSchema_eq_of_not_nested cl false meta t hnone, if_pos hlist]
    simp [leafSchema, _strip, stripList, shapeMatches, shapeMatchesArr]
  · intro t v h1 h1' h2 h2' h3 h3' h4 h4' hlist hw hnoc hsynth meta
    exfalso
    have hnone := nestedRecordFields_none_of t h1' h2' h3' h4'
    rw [synthField_leaf t v hnone, if_pos hlist] at hsynth
    cases v with
    | arr xs =>
        match xs with
        | [] => simp at hsynth
        | [w] => exact hw w rfl
        | w :: w2 :: rest => cases w <;> simp at hsynth
    | _ => simp at hsynth
  · intro t v h1 h1' h2 h2' h3 h3' h4 h4' hlist hnoc hsynth meta
    have hnone := nestedRecordFields_none_of t h1' h2' h3' h4'
    rw [fieldSchema_eq_of_not_nested cl false meta t hnone,
      if_neg (by simpa using hlist)]
    simp [leafSchema, shapeMatches]
  · intro _ _
    simp [instSchemaFields, stripKVs, shapeMatchesKVs]
  · intro n fst t rest k v kvs ih1 ih2 hnoc hsynth
    simp only [noCollisionList, Bool.and_eq_true] at hnoc
    simp only [synthFields, Bool.and_eq_true] at hsynth
    simp only [instSchemaFields, stripKVs, shapeMatchesKVs, Bool.and_eq_true]
    exact ⟨⟨hsynth.1.1, ih1 hnoc.1 hsynth.1.2 fst⟩, ih2 hnoc.2 hsynth.2⟩
  · intro fs kvs hnil hcons hnoc hsynth
    exfalso
    cases fs with
    | nil =>
        cases kvs with
        | nil => exact hnil rfl rfl
        | cons kv kvs => simp [synthFields] at hsynth
    | cons f fs =>
        cases kvs with
        | nil =>
            obtain ⟨n, m, t⟩ := f
            simp [synthFields] at hsynth
        | cons kv kvs =>
            obtain ⟨n, m, t⟩ := f
            obtain ⟨k, v⟩ := kv
            exact hcons n m t fs k v kvs rfl rfl

/-- C1 (amended): for every Record Descriptor `R` in which no record
(the top level included, recursively) has exactly the two fields `value` and
`citations`, stripping any synthetic response shaped like
`compile(R, _, citation=true)` — every compiler-wrapped leaf replaced by a
mapping with the `value` and `citations` keys — yields a tree whose shape
matches `compile(R, _, citation=false)`: wrappers replaced by their `value`
member, record nesting and one-element list wrapping preserved.  (The
collision side condition is forced: see the counterexample.) -/
theorem strip_roundtrip_shape (model : RecordDescriptor) (resp : JValue)
    (cl : CitationLevel) (hnc : noCollisionFields model = true)
    (hs : synthResponse model resp = true) :
    shapeMatches (pydantic_to_json_instance_schema model cl false)
      (strip_citations resp) = true := by
  cases resp with
  | obj kvs =>
      simp only [synthResponse] at hs
      simp only [noCollisionFields, Bool.and_eq_true, Bool.not_eq_true'] at hnc
      have hw := not_wrapper_of_synth model kvs hs hnc.1
      simp only [pydantic_to_json_instance_schema, strip_citations, _strip, hw,
        Bool.false_eq_true, if_false]
      simp only [shapeMatches]
      exact synth_strip_fields cl model kvs hnc.2 hs
  | _ => simp [synthResponse] at hs

/-- C1 counterexample: with a record whose field set is exactly
`{value, citations}`, the synthetic response is itself wrapper-shaped, the
strip pass replaces the whole record by its `value` member, and the resulting
shape no longer matches `compile(R, _, citation=false)` — the round-trip law
fails without the collision side condition. -/
theorem strip_roundtrip_shape_cex :
    synthResponse collidingModel collidingResp = true ∧
    shapeMatches (pydantic_to_json_instance_schema collidingModel .line false)
      (strip_citations collidingResp) = false :=
  ⟨rfl, rfl⟩

/-- Witness for the amended C1 at a concrete collision-free descriptor. -/
theorem strip_roundtrip_shape_witness :
    shapeMatches (pydantic_to_json_instance_schema sampleModel .line false)
      (strip_citations sampleResp) = true :=
  strip_roundtrip_shape sampleModel sampleResp .line rfl rfl

end DocAI
